import Mathlib

/-!
Verification of the grob (growable buffer) crate's negotiation engine.

This file is a shallow embedding of the crate's core: the result
classifiers (`RvIsError`, `RvIsSize` in `win.rs`), the growth strategies
(`strategy.rs`), the buffer kinds (`buffer.rs`), the negotiator and
orchestration (`lib.rs`), and the generic loop (`generic.rs`).

Machine integers (`u32`) are modelled as `Nat` with explicit clamping at
`u32Max` wherever the source saturates; the source performs its strategy
arithmetic in `u64`, which never overflows for `u32` inputs, so plain `Nat`
arithmetic is exact there.  Rust panics (`assert!`, `unreachable!`,
`panic!`-on-`PendingSwitch`) are modelled by `Option`, with `none` meaning
the process aborts.
-/

namespace Grob

/-- Maximum value of a `u32`. -/
def u32Max : Nat := 4294967295

/-- `MEMORY_ALLOCATION_ALIGNMENT` on 64-bit Windows, used by `buffer.rs`
as the alignment for every grob buffer. -/
def ALIGNMENT : Nat := 16

/-- Size of a `WCHAR` in bytes (`win.rs::SIZE_OF_WCHAR`). -/
def SIZE_OF_WCHAR : Nat := 2

/-- Windows `NO_ERROR` status code. -/
def NO_ERROR : Nat := 0

/-- Windows `ERROR_INSUFFICIENT_BUFFER` status code. -/
def ERROR_INSUFFICIENT_BUFFER : Nat := 122

/-- Windows `ERROR_BUFFER_OVERFLOW` status code. -/
def ERROR_BUFFER_OVERFLOW : Nat := 111

/-- Windows `ERROR_NO_DATA` status code. -/
def ERROR_NO_DATA : Nat := 232

/-- `base.rs::FillBufferAction`: what to do after an operating system call. -/
inductive FillBufferAction where
  | Commit
  | Grow
  | NoData
deriving DecidableEq, Repr

/-- `base.rs::FillBufferResult`, with the raw OS error code standing in for
`std::io::Error` (the code is all `from_raw_os_error` preserves). -/
abbrev FillBufferResult := Except Nat FillBufferAction

/-- Observable effect of `ToResult::to_result`: the classification together
with the needed-size slot after the call (`set_needed_size` effects). -/
abbrev ClassifierState := FillBufferResult × Nat

/-- `win.rs::RvIsError::to_result`.  `code` is the wrapped `WIN32_ERROR`,
`ns` the current needed size (`NeededSize::needed_size`).  This classifier
never calls `set_needed_size`, so only the classification is returned. -/
def rvIsErrorToResult (code ns : Nat) : FillBufferResult :=
  let rv : FillBufferResult :=
    if code = NO_ERROR then .ok .Commit
    else if code = ERROR_INSUFFICIENT_BUFFER then .ok .Grow
    else if code = ERROR_BUFFER_OVERFLOW then .ok .Grow
    else if code = ERROR_NO_DATA then .ok .NoData
    else .error code
  match rv with
  | .ok a => if ns = 0 then .ok .NoData else .ok a
  | .error e => .error e

/-- `win.rs::RvIsSize::to_result`.  `rv` is the element count returned by
the call, `gle` the captured `GetLastError` value, `ns` the needed-size
slot.  The result pairs the classification with the updated needed size;
`none` models the `unreachable!()` panic. -/
def rvIsSizeToResult (rv gle ns : Nat) : Option ClassifierState :=
  if rv = 0 then
    if gle = NO_ERROR then some (.ok .NoData, ns)
    else if ns = 0 then some (.ok .Grow, 1)
    else some (.error gle, ns)
  else if rv < ns then some (.ok .Commit, rv)
  else if gle = ERROR_INSUFFICIENT_BUFFER then some (.ok .Grow, min (rv * 2) u32Max)
  else none

/-- `strategy.rs::GrowToNearestNibbleWithExtra::next_capacity`, parametrised
by the `NearestNibbleAdjustments` constants `EXTRA`, `SCALE` and `FLOOR`.
The source computes in `u64`, which cannot overflow for `u32` input, so the
`Nat` arithmetic here is exact; the final `min` is the source's clamp. -/
def nearestNibbleNext (extra scale floor : Nat) (_tries desired_capacity : Nat) : Nat :=
  let bumped_nibbles := (desired_capacity + extra + 15) / 16
  let scaled_bytes := bumped_nibbles * 16 * scale
  min (max (max scaled_bytes desired_capacity) floor) u32Max

/-- `strategy.rs::GrowToNearestQuarterKibi::next_capacity`. -/
def quarterKibiNext (_tries desired_capacity : Nat) : Nat :=
  let quarter_kibis := (desired_capacity + 255 + ALIGNMENT) / 256
  min (quarter_kibis * 256) u32Max

/-- The grow strategies shipped by the crate (`strategy.rs`).  The public
aliases `GrowForSmallBinary`, `GrowForStaticText` and
`GrowForStoredIsReturned` name the first three. -/
inductive Strategy where
  | growToNearestNibble
  | growToNearestNibbleWithNull
  | growByDoubleWithNull (floor : Nat)
  | growToNearestQuarterKibi
deriving DecidableEq, Repr

/-- `GrowStrategy::next_capacity` for each shipped strategy, via the
adjustment constants of `NoAdjustments`, `AdjustForNull` and
`DoublePlusNull<FLOOR>`. -/
def Strategy.nextCapacity : Strategy → Nat → Nat → Nat
  | .growToNearestNibble, t, d => nearestNibbleNext 0 1 0 t d
  | .growToNearestNibbleWithNull, t, d => nearestNibbleNext SIZE_OF_WCHAR 1 0 t d
  | .growByDoubleWithNull f, t, d => nearestNibbleNext SIZE_OF_WCHAR 2 f t d
  | .growToNearestQuarterKibi, t, d => quarterKibiNext t d

/-- `buffer.rs::HeapBuffer`: one aligned heap allocation.  The pointer and
layout are not observable to the claims; the capacity and `final_size`
fields are. -/
structure HeapBuffer where
  capacity : Nat
  final_size : Nat
deriving DecidableEq, Repr

/-- `HeapBuffer::new`: a fresh allocation of exactly `capacity` bytes with
`final_size` zero (allocation failure aborts the process and is not a
value-level outcome). -/
def HeapBuffer.new (capacity : Nat) : HeapBuffer :=
  { capacity := capacity, final_size := 0 }

/-- `HeapBuffer::read_buffer`: asserts `final_size > 0` (modelled by
`none`), then returns the pointer (always present, modelled as `true`) and
the element count. -/
def HeapBuffer.readBuffer (h : HeapBuffer) : Option (Bool × Nat) :=
  if h.final_size > 0 then some (true, h.final_size) else none

/-- `buffer.rs::StackBuffer<CAPACITY>`.  `cap` is the `CAPACITY` const
generic; `offset` is `align_offset` of the stack address, an arbitrary
address-dependent value. -/
structure StackBuffer where
  cap : Nat
  offset : Nat
  final_size : Nat
deriving DecidableEq, Repr

/-- `StackBuffer::capacity` (`WriteBuffer` impl): usable aligned bytes, `0`
when the region cannot satisfy the alignment. -/
def StackBuffer.capacity (sb : StackBuffer) : Nat :=
  if sb.cap ≥ ALIGNMENT then sb.cap - sb.offset else 0

/-- `StackBuffer::write_buffer`: the capacity half of the returned pair
(the pointer is always returned). -/
def StackBuffer.writeCapacity (sb : StackBuffer) : Nat :=
  if sb.cap ≥ ALIGNMENT then sb.cap - sb.offset else 0

/-- `StackBuffer::read_buffer` (`ReadBuffer` impl): `(none, 0)` when the
region is smaller than the alignment, else the aligned pointer (`true`)
and `final_size`. -/
def StackBuffer.readBuffer (sb : StackBuffer) : Bool × Nat :=
  if sb.cap ≥ ALIGNMENT then (true, sb.final_size) else (false, 0)

/-- `lib.rs::ActiveBuffer`: the tagged union over heap, initial (stack) and
the transitional `PendingSwitch` state. -/
inductive ActiveBuffer where
  | heap (h : HeapBuffer)
  | initial (sb : StackBuffer)
  | pendingSwitch
deriving DecidableEq, Repr

/-- `ActiveBuffer::set_final_size`; `none` models the
`panic!("PendingSwitch is only valid in grow")`. -/
def ActiveBuffer.setFinalSize : ActiveBuffer → Nat → Option ActiveBuffer
  | .heap h, fs => some (.heap { h with final_size := fs })
  | .initial sb, fs => some (.initial { sb with final_size := fs })
  | .pendingSwitch, _ => none

/-- `BufferStrategy::capacity` seen through the active buffer; `none`
models the `PendingSwitch` panic. -/
def ActiveBuffer.capacityOpt : ActiveBuffer → Option Nat
  | .heap h => some h.capacity
  | .initial sb => some sb.capacity
  | .pendingSwitch => none

/-- `lib.rs::BufferStrategy`: the active buffer, the grow strategy (an
arbitrary `&dyn GrowStrategy`, modelled as a function) and the attempt
counter. -/
structure BufferStrategy where
  active_buffer : ActiveBuffer
  grow_strategy : Nat → Nat → Nat
  tries : Nat

/-- `BufferStrategy::capacity`. -/
def BufferStrategy.capacityOpt (bs : BufferStrategy) : Option Nat :=
  bs.active_buffer.capacityOpt

/-- `BufferStrategy::grow`: no-op unless `desired_capacity` exceeds the
current capacity; otherwise increment `tries`, ask the strategy for the
next capacity, assert it grew (`none` on failure) and install a fresh heap
buffer of exactly that capacity. -/
def BufferStrategy.grow (bs : BufferStrategy) (desired_capacity : Nat) :
    Option BufferStrategy :=
  match bs.capacityOpt with
  | none => none
  | some current_capacity =>
    if desired_capacity > current_capacity then
      let tries := bs.tries + 1
      let adjusted_capacity := bs.grow_strategy tries desired_capacity
      if adjusted_capacity > current_capacity then
        some { active_buffer := .heap (HeapBuffer.new adjusted_capacity),
               grow_strategy := bs.grow_strategy, tries := tries }
      else none
    else some bs

/-- `BufferStrategy::raw_buffer`: the capacity half of the active buffer's
`write_buffer`; `none` models the `PendingSwitch` panic. -/
def BufferStrategy.rawBufferCapacity (bs : BufferStrategy) : Option Nat :=
  match bs.active_buffer with
  | .heap h => some h.capacity
  | .initial sb => some sb.writeCapacity
  | .pendingSwitch => none

/-- `traits.rs::RawToInternal`: unit conversions between buffer capacity in
bytes and the API's size unit. -/
structure RawToInternal where
  capacity_to_size : Nat → Nat
  size_to_capacity : Nat → Nat

/-- The blanket `RawToInternal` impl for `*mut T`: size and capacity are
both bytes. -/
def rawBinary : RawToInternal :=
  { capacity_to_size := fun v => v, size_to_capacity := fun v => v }

/-- The `RawToInternal` impl for `PWSTR` (`win.rs`): sizes are WCHAR
counts, with a saturating multiply back to bytes. -/
def rawPWSTR : RawToInternal :=
  { capacity_to_size := fun v => v / SIZE_OF_WCHAR,
    size_to_capacity := fun v => min (v * SIZE_OF_WCHAR) u32Max }

/-- `lib.rs::PassiveBuffer` together with the `EmptyReadBuffer` it can wrap
(`PassiveBuffer::Initial(&EMPTY_READ_BUFFER)` is the `empty` case). -/
inductive PassiveBuffer where
  | heap (h : HeapBuffer)
  | initial (sb : StackBuffer)
  | empty
deriving DecidableEq, Repr

/-- `From<ActiveBuffer> for PassiveBuffer`; `none` models the
`PendingSwitch` panic. -/
def ActiveBuffer.intoPassive : ActiveBuffer → Option PassiveBuffer
  | .heap h => some (.heap h)
  | .initial sb => some (.initial sb)
  | .pendingSwitch => none

/-- `lib.rs::FrozenBuffer`: the immutable read view. -/
structure FrozenBuffer where
  passive_buffer : PassiveBuffer
deriving DecidableEq, Repr

/-- `FrozenBuffer::read_buffer`: pointer presence and element count, routed
through the wrapped passive buffer (`none` models the heap buffer's
`final_size > 0` assertion). -/
def FrozenBuffer.readBuffer (fb : FrozenBuffer) : Option (Bool × Nat) :=
  match fb.passive_buffer with
  | .heap h => h.readBuffer
  | .initial sb => some sb.readBuffer
  | .empty => some (false, 0)

/-- `lib.rs::GrowableBuffer`, with the `IT` type parameter's
`RawToInternal` impl carried as data. -/
structure GrowableBuffer where
  conv : RawToInternal
  final_size : Nat
  buffer_strategy : BufferStrategy

/-- `GrowableBufferAsParent::set_final_size`: assert the needed capacity
fits the current buffer (`none` on failure, also on `PendingSwitch`), then
record the final size. -/
def GrowableBuffer.setFinalSize (gb : GrowableBuffer) (size : Nat) :
    Option GrowableBuffer :=
  match gb.buffer_strategy.capacityOpt with
  | none => none
  | some cap =>
    if gb.conv.size_to_capacity size ≤ cap then
      some { gb with final_size := size }
    else none

/-- `GrowableBufferAsParent::grow`: convert the size to a capacity and grow
the underlying `BufferStrategy`. -/
def GrowableBuffer.growParent (gb : GrowableBuffer) (size : Nat) :
    Option GrowableBuffer :=
  (gb.buffer_strategy.grow (gb.conv.size_to_capacity size)).map
    (fun bs => { gb with buffer_strategy := bs })

/-- `lib.rs::Argument`: the per-attempt lease.  The parent reference is
passed explicitly to the consuming operations. -/
structure Argument where
  size : Nat
  tries : Nat
deriving DecidableEq, Repr

/-- `GrowableBuffer::argument`: reset `final_size` to `0`, read the raw
buffer and build the `Argument` whose `size` is the capacity converted to
API units. -/
def GrowableBuffer.argument (gb : GrowableBuffer) :
    Option (GrowableBuffer × Argument) :=
  let gb := { gb with final_size := 0 }
  match gb.buffer_strategy.rawBufferCapacity with
  | none => none
  | some capacity =>
    some (gb, { size := gb.conv.capacity_to_size capacity,
                tries := gb.buffer_strategy.tries + 1 })

/-- `GrowableBuffer::freeze`: when a positive final size was committed,
finalize the active buffer and expose it; otherwise return the explicit
always-empty view. -/
def GrowableBuffer.freeze (gb : GrowableBuffer) : Option FrozenBuffer :=
  if gb.final_size > 0 then
    match gb.buffer_strategy.active_buffer.setFinalSize gb.final_size with
    | none => none
    | some ab =>
      match ab.intoPassive with
      | none => none
      | some pb => some { passive_buffer := pb }
  else some { passive_buffer := .empty }

/-- `Argument::commit`: freeze the parent with the currently reported
size. -/
def Argument.commit (a : Argument) (gb : GrowableBuffer) :
    Option GrowableBuffer :=
  gb.setFinalSize a.size

/-- `Argument::commit_no_data`: freeze the parent with size zero. -/
def Argument.commitNoData (_a : Argument) (gb : GrowableBuffer) :
    Option GrowableBuffer :=
  gb.setFinalSize 0

/-- `Argument::grow`: grow the parent using the currently reported needed
size. -/
def Argument.growParent (a : Argument) (gb : GrowableBuffer) :
    Option GrowableBuffer :=
  gb.growParent a.size

/-- `Argument::apply`: dispatch over the three actions; the returned `Bool`
is the source's return value (`true` breaks the negotiation loop). -/
def Argument.apply (a : Argument) (gb : GrowableBuffer)
    (action : FillBufferAction) : Option (GrowableBuffer × Bool) :=
  match action with
  | .Commit => (a.commit gb).map (fun gb => (gb, true))
  | .Grow => (a.growParent gb).map (fun gb => (gb, false))
  | .NoData => (a.commitNoData gb).map (fun gb => (gb, true))

/-- One attempt's scripted outcome for the generic loop: what
`rv.to_result(&mut argument)` yields, i.e. either the propagated terminal
error or the action together with the argument's needed-size slot after the
external call and the classifier ran. -/
abbrev Outcome := Except Nat (FillBufferAction × Nat)

/-- The `loop` body of `generic.rs::winapi_generic`, driven by a script of
per-attempt outcomes.  Returns the growable buffer at loop exit (or the
propagated terminal error) together with the number of attempts performed;
`none` models a panic, or a script too short for the loop to exit. -/
def runLoop : GrowableBuffer → List Outcome → Option (Except Nat GrowableBuffer × Nat)
  | _, [] => none
  | gb, o :: rest =>
    match gb.argument with
    | none => none
    | some (gb, a0) =>
      match o with
      | .error e => some (.error e, 1)
      | .ok (action, sz) =>
        let a : Argument := { a0 with size := sz }
        match a.apply gb action with
        | none => none
        | some (gb, true) => some (.ok gb, 1)
        | some (gb, false) =>
          match runLoop gb rest with
          | none => none
          | some (r, n) => some (r, n + 1)

/-- `generic.rs::winapi_generic`: run the loop, propagate a terminal error
immediately, otherwise freeze and hand the frozen buffer to `finalize`.
The result carries the attempt count and whether `finalize` was invoked. -/
def winapiGeneric (U : Type) (gb : GrowableBuffer) (script : List Outcome)
    (finalize : FrozenBuffer → Except Nat U) : Option (Except Nat U × Nat × Bool) :=
  match runLoop gb script with
  | none => none
  | some (.error e, n) => some (.error e, n, false)
  | some (.ok gb, n) =>
    match gb.freeze with
    | none => none
    | some fb => some (finalize fb, n, true)

/-- Heap allocator events emitted by `BufferStrategy::grow`, in program
order. -/
inductive MemEvent where
  | alloc (cap : Nat)
  | free (cap : Nat)
deriving DecidableEq, Repr

/-- `BufferStrategy::grow` instrumented with its allocator events: the
assignment `self.active_buffer = ActiveBuffer::PendingSwitch` drops (frees)
the previously held heap buffer, and only then `HeapBuffer::new` allocates
the replacement. -/
def BufferStrategy.growEvents (bs : BufferStrategy) (desired_capacity : Nat) :
    Option (BufferStrategy × List MemEvent) :=
  match bs.capacityOpt with
  | none => none
  | some current_capacity =>
    if desired_capacity > current_capacity then
      let tries := bs.tries + 1
      let adjusted_capacity := bs.grow_strategy tries desired_capacity
      if adjusted_capacity > current_capacity then
        let freed := match bs.active_buffer with
          | .heap h => [MemEvent.free h.capacity]
          | _ => []
        some ({ active_buffer := .heap (HeapBuffer.new adjusted_capacity),
                grow_strategy := bs.grow_strategy, tries := tries },
              freed ++ [MemEvent.alloc adjusted_capacity])
      else none
    else some (bs, [])

/-- Run a sequence of `grow` requests, concatenating the allocator
events. -/
def runGrows : BufferStrategy → List Nat → Option (BufferStrategy × List MemEvent)
  | bs, [] => some (bs, [])
  | bs, d :: ds =>
    match bs.growEvents d with
    | none => none
    | some (bs, evs) =>
      match runGrows bs ds with
      | none => none
      | some (bsf, evs') => some (bsf, evs ++ evs')

/-- Heap bytes held after one allocator event. -/
def stepBytes (cur : Nat) : MemEvent → Nat
  | .alloc c => cur + c
  | .free c => cur - c

/-- Number of live heap buffers after one allocator event. -/
def stepCount (cur : Nat) : MemEvent → Nat
  | .alloc _ => cur + 1
  | .free _ => cur - 1

/-- Value of a quantity after processing a whole event trace. -/
def traceEnd (step : Nat → MemEvent → Nat) (cur : Nat) (evs : List MemEvent) : Nat :=
  evs.foldl step cur

/-- Maximum of a quantity over every moment of an event trace (the initial
moment included). -/
def tracePeak (step : Nat → MemEvent → Nat) : Nat → List MemEvent → Nat
  | cur, [] => cur
  | cur, e :: rest => max cur (tracePeak step (step cur e) rest)

/-- Largest single allocation requested in a trace. -/
def maxAlloc : List MemEvent → Nat
  | [] => 0
  | .alloc c :: rest => max c (maxAlloc rest)
  | .free _ :: rest => maxAlloc rest

/-- Heap bytes held by the active buffer (the initial stack buffer holds
none). -/
def ActiveBuffer.heapBytes : ActiveBuffer → Nat
  | .heap h => h.capacity
  | _ => 0

/-- Number of heap buffers held by the active buffer. -/
def ActiveBuffer.heapCount : ActiveBuffer → Nat
  | .heap _ => 1
  | _ => 0

/-- Claim C1, counterexample.  The claim's table sends `(rv > 0, rv = ns,
status insufficient-buffer)` to Grow and aborts on "every other
combination"; but at `rv = 10`, `ns = 5`, status `ERROR_INSUFFICIENT_BUFFER`
(a combination with `rv ≠ ns` that the table would abort on) the code
returns Grow with the needed size saturating-doubled. -/
theorem rvIsSize_beyond_capacity_cex :
    (10 : Nat) ≠ 0 ∧ ¬ (10 : Nat) < 5 ∧ (10 : Nat) ≠ 5 ∧
      rvIsSizeToResult 10 ERROR_INSUFFICIENT_BUFFER 5 = some (.ok .Grow, 20) :=
  ⟨by decide, by decide, by decide, rfl⟩

/-- Claim C1, amended: `RvIsSize::to_result` implements the ordered table
with the Grow-doubled row guarded by `rv ≥ ns` (not `rv = ns`): reported
count 0 with success status yields NoData; reported 0 on a zero-capacity
state yields Grow after bootstrapping the needed size to 1; reported 0
otherwise is the terminal error; `0 < rv < ns` yields Commit with needed
size `rv`; `rv ≥ ns` with status insufficient-buffer yields Grow with the
needed size saturating-doubled; every other combination panics. -/
theorem rvIsSize_to_result_table (rv gle ns : Nat) :
    (rv = 0 → gle = NO_ERROR → rvIsSizeToResult rv gle ns = some (.ok .NoData, ns)) ∧
    (rv = 0 → gle ≠ NO_ERROR → ns = 0 → rvIsSizeToResult rv gle ns = some (.ok .Grow, 1)) ∧
    (rv = 0 → gle ≠ NO_ERROR → ns ≠ 0 → rvIsSizeToResult rv gle ns = some (.error gle, ns)) ∧
    (rv ≠ 0 → rv < ns → rvIsSizeToResult rv gle ns = some (.ok .Commit, rv)) ∧
    (rv ≠ 0 → ns ≤ rv → gle = ERROR_INSUFFICIENT_BUFFER →
      rvIsSizeToResult rv gle ns = some (.ok .Grow, min (rv * 2) u32Max)) ∧
    (rv ≠ 0 → ns ≤ rv → gle ≠ ERROR_INSUFFICIENT_BUFFER →
      rvIsSizeToResult rv gle ns = none) := by
  refine ⟨?_, ?_, ?_, ?_, ?_, ?_⟩ <;>
    intros <;>
    simp_all [rvIsSizeToResult, NO_ERROR, ERROR_INSUFFICIENT_BUFFER]

/-- Claim C1, witness: the table at concrete inputs. -/
theorem rvIsSize_to_result_table_witness :
    rvIsSizeToResult 0 0 7 = some (.ok .NoData, 7) ∧
    rvIsSizeToResult 3 ERROR_INSUFFICIENT_BUFFER 3 = some (.ok .Grow, 6) :=
  ⟨(rvIsSize_to_result_table 0 0 7).1 rfl rfl,
   (rvIsSize_to_result_table 3 ERROR_INSUFFICIENT_BUFFER 3).2.2.2.2.1
     (by decide) (by decide) rfl⟩

/-- Claim C2, counterexample.  The claim demotes only the success-code
Commit to NoData when the reported needed size is 0; the code demotes every
successful classification, so `ERROR_INSUFFICIENT_BUFFER` with needed size
0 yields NoData where the claim requires Grow. -/
theorem rvIsError_demotes_grow_cex :
    rvIsErrorToResult ERROR_INSUFFICIENT_BUFFER 0 = .ok .NoData ∧
      (Except.ok FillBufferAction.NoData : FillBufferResult) ≠ .ok .Grow :=
  ⟨rfl, fun h => absurd (Except.ok.inj h) (by decide)⟩

/-- Claim C2, amended: `RvIsError::to_result` maps insufficient-buffer and
overflow codes to Grow, the no-data code to NoData, success to Commit, and
any other code to the terminal error wrapping it — with every successful
classification (not just Commit) demoted to NoData when the reported needed
size is 0. -/
theorem rvIsError_to_result_table (code ns : Nat) :
    (ns ≠ 0 → code = ERROR_INSUFFICIENT_BUFFER ∨ code = ERROR_BUFFER_OVERFLOW →
      rvIsErrorToResult code ns = .ok .Grow) ∧
    (code = ERROR_NO_DATA → rvIsErrorToResult code ns = .ok .NoData) ∧
    (ns ≠ 0 → code = NO_ERROR → rvIsErrorToResult code ns = .ok .Commit) ∧
    (ns = 0 →
      code = NO_ERROR ∨ code = ERROR_INSUFFICIENT_BUFFER ∨
        code = ERROR_BUFFER_OVERFLOW ∨ code = ERROR_NO_DATA →
      rvIsErrorToResult code ns = .ok .NoData) ∧
    (code ≠ NO_ERROR → code ≠ ERROR_INSUFFICIENT_BUFFER → code ≠ ERROR_BUFFER_OVERFLOW →
      code ≠ ERROR_NO_DATA → rvIsErrorToResult code ns = .error code) := by
  refine ⟨?_, ?_, ?_, ?_, ?_⟩
  · intro hns hcode
    rcases hcode with h | h <;> subst h <;>
      simp [rvIsErrorToResult, NO_ERROR, ERROR_INSUFFICIENT_BUFFER,
        ERROR_BUFFER_OVERFLOW, ERROR_NO_DATA, hns]
  · intro h
    subst h
    simp [rvIsErrorToResult, NO_ERROR, ERROR_INSUFFICIENT_BUFFER,
      ERROR_BUFFER_OVERFLOW, ERROR_NO_DATA]
  · intro hns h
    subst h
    simp [rvIsErrorToResult, NO_ERROR, ERROR_INSUFFICIENT_BUFFER,
      ERROR_BUFFER_OVERFLOW, ERROR_NO_DATA, hns]
  · intro hns hcode
    subst hns
    rcases hcode with h | h | h | h <;> subst h <;> rfl
  · intro h1 h2 h3 h4
    simp_all [rvIsErrorToResult, NO_ERROR, ERROR_INSUFFICIENT_BUFFER,
      ERROR_BUFFER_OVERFLOW, ERROR_NO_DATA]

/-- Claim C2, witness: the table at concrete inputs. -/
theorem rvIsError_to_result_table_witness :
    rvIsErrorToResult ERROR_BUFFER_OVERFLOW 9 = .ok .Grow ∧
    rvIsErrorToResult 5 9 = .error 5 :=
  ⟨(rvIsError_to_result_table ERROR_BUFFER_OVERFLOW 9).1 (by decide) (Or.inr rfl),
   (rvIsError_to_result_table 5 9).2.2.2.2 (by decide) (by decide) (by decide) (by decide)⟩

/-- Claim C3, counterexample.  `next_capacity` never sees the current
capacity, so its output is not strictly greater than every current
capacity: `GrowToNearestNibble` at attempt 1 with desired capacity 0
returns 0, which is not greater than a current capacity of 16. -/
theorem next_capacity_not_above_current_cex :
    Strategy.nextCapacity .growToNearestNibble 1 0 = 0 ∧
      ¬ 16 < Strategy.nextCapacity .growToNearestNibble 1 0 := by
  constructor <;> decide

/-- Claim C3, amended: for every grow strategy shipped by the crate, every
attempt count, and every `u32` pair with `desired_capacity` strictly above
`current_capacity` (the only situation in which `grow` consults the
strategy), `next_capacity` returns strictly more than `current_capacity`;
in fact it returns at least `desired_capacity`. -/
theorem next_capacity_gt_current (st : Strategy) (tries current desired : Nat)
    (hd : desired ≤ u32Max) (hcur : current < desired) :
    current < st.nextCapacity tries desired := by
  have hge : desired ≤ st.nextCapacity tries desired := by
    cases st <;>
      simp only [Strategy.nextCapacity, nearestNibbleNext, quarterKibiNext,
        SIZE_OF_WCHAR, ALIGNMENT] <;>
      omega
  omega

/-- Claim C3, witness: the quarter-kibi strategy at attempt 2 growing from
capacity 300 toward 301 yields more than 300. -/
theorem next_capacity_gt_current_witness :
    (301 : Nat) ≤ u32Max ∧ (300 : Nat) < 301 ∧
      300 < Strategy.nextCapacity .growToNearestQuarterKibi 2 301 :=
  ⟨by decide, by decide,
   next_capacity_gt_current .growToNearestQuarterKibi 2 300 301 (by decide) (by decide)⟩

/-- Claim C8: for every attempt count and desired capacity,
`GrowToNearestNibble::next_capacity` returns the least multiple of 16 that
is at least the desired capacity, clamped to `u32::MAX`; the arithmetic is
exact (performed in 64-bit in the source, `Nat` here). -/
theorem grow_to_nearest_nibble_least_multiple (tries d : Nat) :
    Strategy.nextCapacity .growToNearestNibble tries d = min (16 * ((d + 15) / 16)) u32Max ∧
    d ≤ 16 * ((d + 15) / 16) ∧
    16 ∣ 16 * ((d + 15) / 16) ∧
    (∀ k, d ≤ k → 16 ∣ k → 16 * ((d + 15) / 16) ≤ k) := by
  refine ⟨?_, by omega, Dvd.intro _ rfl, ?_⟩
  · simp only [Strategy.nextCapacity, nearestNibbleNext]
    omega
  · intro k hdk hdvd
    omega

/-- Claim C8, witness: at desired capacity 100 the strategy returns 112,
the least multiple of 16 at or above 100. -/
theorem grow_to_nearest_nibble_least_multiple_witness :
    Strategy.nextCapacity .growToNearestNibble 1 100 = min (16 * ((100 + 15) / 16)) u32Max ∧
    16 * ((100 + 15) / 16) ≤ 112 :=
  ⟨(grow_to_nearest_nibble_least_multiple 1 100).1,
   (grow_to_nearest_nibble_least_multiple 1 100).2.2.2 112 (by decide) (by decide)⟩

/-- Claim C4: `grow(desired_capacity)` is a no-op when `desired_capacity`
does not exceed the current capacity; otherwise it increments the attempt
counter by exactly one, asks the strategy for a new capacity, replaces the
active buffer by a freshly allocated heap buffer of exactly that capacity
when the strategy returned something strictly larger, and aborts when it
did not. -/
theorem buffer_strategy_grow_spec (bs : BufferStrategy) (desired current : Nat)
    (hcap : bs.capacityOpt = some current) :
    (desired ≤ current → bs.grow desired = some bs) ∧
    (current < desired →
      (current < bs.grow_strategy (bs.tries + 1) desired →
        bs.grow desired =
          some { active_buffer := .heap (HeapBuffer.new (bs.grow_strategy (bs.tries + 1) desired)),
                 grow_strategy := bs.grow_strategy, tries := bs.tries + 1 }) ∧
      (bs.grow_strategy (bs.tries + 1) desired ≤ current → bs.grow desired = none)) := by
  unfold BufferStrategy.grow
  rw [hcap]
  refine ⟨fun h => ?_, fun h => ⟨fun h2 => ?_, fun h2 => ?_⟩⟩
  · simp [Nat.not_lt.mpr h]
  · simp [h, h2]
  · simp [h, Nat.not_lt.mpr h2]

/-- Concrete negotiator state used by the claim C4 witness. -/
def bsW : BufferStrategy :=
  { active_buffer := .initial { cap := 32, offset := 0, final_size := 0 },
    grow_strategy := fun _ d => d + 7, tries := 2 }

/-- Claim C4, witness: growing the concrete state `bsW` (capacity 32) to a
desired capacity of 40 installs a fresh heap buffer of the strategy's
answer 47 and bumps the attempt counter from 2 to 3. -/
theorem buffer_strategy_grow_spec_witness :
    bsW.grow 40 =
      some { active_buffer := .heap (HeapBuffer.new (bsW.grow_strategy (bsW.tries + 1) 40)),
             grow_strategy := bsW.grow_strategy, tries := bsW.tries + 1 } :=
  ((buffer_strategy_grow_spec bsW 40 32 rfl).2 (by decide)).1 (by decide)

/-- Claim C5: for every active buffer with capacity `cap` and every
`S ≤ cap`, committing size `S` through an `Argument` and then freezing
yields a frozen buffer whose read view reports exactly `S` elements, with
a pointer present if and only if `S > 0`.  Stated for the byte-unit
(`*mut T`) conversion, under which the claim's `S ≤ capacity` is the
commit assertion. -/
theorem commit_freeze_round_trip (ab : ActiveBuffer) (strat : Nat → Nat → Nat)
    (tries fs0 cap S : Nat) (arg : Argument)
    (hcap : ab.capacityOpt = some cap) (hS : S ≤ cap) (hsize : arg.size = S) :
    (S = 0 →
      ((arg.commit ⟨rawBinary, fs0, ⟨ab, strat, tries⟩⟩).bind
        GrowableBuffer.freeze).bind FrozenBuffer.readBuffer = some (false, 0)) ∧
    (0 < S →
      ((arg.commit ⟨rawBinary, fs0, ⟨ab, strat, tries⟩⟩).bind
        GrowableBuffer.freeze).bind FrozenBuffer.readBuffer = some (true, S)) := by
  constructor
  · intro hz
    simp [Argument.commit, GrowableBuffer.setFinalSize, BufferStrategy.capacityOpt, hcap,
      rawBinary, hsize, hz, GrowableBuffer.freeze, FrozenBuffer.readBuffer]
  · intro hp
    cases ab with
    | pendingSwitch => simp [ActiveBuffer.capacityOpt] at hcap
    | heap h =>
      have hc : h.capacity = cap := by
        simpa [ActiveBuffer.capacityOpt] using hcap
      simp [Argument.commit, GrowableBuffer.setFinalSize, BufferStrategy.capacityOpt,
        ActiveBuffer.capacityOpt, rawBinary, hsize, hc, hS, GrowableBuffer.freeze, hp,
        ActiveBuffer.setFinalSize, ActiveBuffer.intoPassive,
        FrozenBuffer.readBuffer, HeapBuffer.readBuffer]
    | initial sb =>
      have hc : sb.capacity = cap := by
        simpa [ActiveBuffer.capacityOpt] using hcap
      have halign : ALIGNMENT ≤ sb.cap := by
        by_contra hn
        rw [StackBuffer.capacity, if_neg (by omega)] at hc
        omega
      simp [Argument.commit, GrowableBuffer.setFinalSize, BufferStrategy.capacityOpt,
        ActiveBuffer.capacityOpt, rawBinary, hsize, hc, hS, GrowableBuffer.freeze, hp,
        ActiveBuffer.setFinalSize, ActiveBuffer.intoPassive,
        FrozenBuffer.readBuffer, StackBuffer.readBuffer, halign]

/-- Claim C5, witness: committing 5 bytes into a 32-byte heap buffer and
freezing exposes a pointer and exactly 5 elements. -/
theorem commit_freeze_round_trip_witness :
    ((Argument.commit ⟨5, 1⟩
        ⟨rawBinary, 0, ⟨.heap ⟨32, 0⟩, fun _ d => d, 0⟩⟩).bind
      GrowableBuffer.freeze).bind FrozenBuffer.readBuffer = some (true, 5) :=
  (commit_freeze_round_trip (.heap ⟨32, 0⟩) (fun _ d => d)
    0 0 32 5 ⟨5, 1⟩ rfl (by decide) rfl).2 (by decide)

/-- Claim C6: applying NoData (`commit_no_data`) and then freezing yields
the always-empty read view — no pointer and zero elements — for every
active buffer kind and every unit conversion mapping size 0 to capacity 0
(both shipped conversions do). -/
theorem no_data_freeze_empty (conv : RawToInternal) (ab : ActiveBuffer)
    (strat : Nat → Nat → Nat) (tries fs0 cap : Nat) (arg : Argument)
    (hcap : ab.capacityOpt = some cap) (hzero : conv.size_to_capacity 0 = 0) :
    ((arg.commitNoData ⟨conv, fs0, ⟨ab, strat, tries⟩⟩).bind
      GrowableBuffer.freeze).bind FrozenBuffer.readBuffer = some (false, 0) := by
  simp [Argument.commitNoData, GrowableBuffer.setFinalSize, BufferStrategy.capacityOpt,
    hcap, hzero, GrowableBuffer.freeze, FrozenBuffer.readBuffer]

/-- Claim C6, witness: NoData then freeze on a live heap buffer of capacity
32 gives the empty view. -/
theorem no_data_freeze_empty_witness :
    ((Argument.commitNoData ⟨32, 2⟩
        ⟨rawBinary, 0, ⟨.heap ⟨32, 0⟩, fun _ d => d, 1⟩⟩).bind
      GrowableBuffer.freeze).bind FrozenBuffer.readBuffer = some (false, 0) :=
  no_data_freeze_empty rawBinary (.heap ⟨32, 0⟩) (fun _ d => d)
    1 0 32 ⟨32, 2⟩ rfl rfl

/-- Claim C10: every `argument()` call resets the recorded final size to 0,
so freezing afterwards without a new commit yields the always-empty view,
discarding any previously committed size. -/
theorem argument_resets_final_size (gb gb' : GrowableBuffer) (arg : Argument)
    (h : gb.argument = some (gb', arg)) :
    gb'.final_size = 0 ∧ gb'.freeze.bind FrozenBuffer.readBuffer = some (false, 0) := by
  unfold GrowableBuffer.argument at h
  rcases hrb : gb.buffer_strategy.rawBufferCapacity with _ | c <;>
    simp only [hrb] at h
  · exact absurd h (by simp)
  · obtain ⟨h1, -⟩ := Prod.mk.injEq .. ▸ Option.some.inj h
    subst h1
    exact ⟨rfl, by simp [GrowableBuffer.freeze, FrozenBuffer.readBuffer]⟩

/-- Growable buffer with a previously committed size, used by the claim C10
witness. -/
def gbCommitted : GrowableBuffer :=
  { conv := rawBinary, final_size := 9,
    buffer_strategy := { active_buffer := .heap { capacity := 32, final_size := 9 },
                         grow_strategy := fun _ d => d, tries := 1 } }

/-- Claim C10, witness: taking a fresh argument on `gbCommitted` (which has
committed size 9) and freezing without re-committing yields the empty
view. -/
theorem argument_resets_final_size_witness :
    ({ gbCommitted with final_size := 0 } : GrowableBuffer).final_size = 0 ∧
      ({ gbCommitted with final_size := 0 } : GrowableBuffer).freeze.bind
        FrozenBuffer.readBuffer = some (false, 0) :=
  argument_resets_final_size gbCommitted { gbCommitted with final_size := 0 }
    { size := 32, tries := 2 } rfl

/-- When every outcome before a terminal error is a Grow, the loop reaches
the error, returns it and stops: one attempt per Grow plus the failing
one. -/
theorem runLoop_error_spec (pre : List Outcome) :
    ∀ (gb : GrowableBuffer) (e : Nat) (rest : List Outcome) (r : Except Nat GrowableBuffer × Nat),
      (∀ o ∈ pre, ∃ sz, o = Except.ok (FillBufferAction.Grow, sz)) →
      runLoop gb (pre ++ Except.error e :: rest) = some r →
      r = (Except.error e, pre.length + 1) := by
  induction pre with
  | nil =>
    intro gb e rest r _ h
    rw [List.nil_append, runLoop] at h
    rcases harg : gb.argument with _ | ⟨gb1, a0⟩ <;> simp [harg] at h
    simp [← h]
  | cons o pre ih =>
    intro gb e rest r hpre h
    obtain ⟨sz, rfl⟩ := hpre o (List.mem_cons_self o pre)
    rw [List.cons_append, runLoop] at h
    rcases harg : gb.argument with _ | ⟨gb1, a0⟩ <;> simp only [harg] at h
    · exact absurd h (by simp)
    · obtain ⟨s0, t0⟩ := a0
      simp only [Argument.apply] at h
      rcases hG : Argument.growParent ⟨sz, t0⟩ gb1 with _ | gb2 <;>
        simp only [hG, Option.map_none', Option.map_some'] at h
      · exact absurd h (by simp)
      · rcases hrl : runLoop gb2 (pre ++ Except.error e :: rest) with _ | ⟨r', n⟩ <;>
          simp only [hrl] at h
        · exact absurd h (by simp)
        · have hih := ih gb2 e rest (r', n)
            (fun o ho => hpre o (List.mem_cons_of_mem _ ho)) hrl
          obtain ⟨h1, h2⟩ := Prod.mk.injEq .. ▸ hih
          simp only [Option.some.injEq] at h
          subst h1 h2
          simp [← h, List.length_cons]

/-- When no scripted outcome is a terminal error, a completed loop exits
with a committed growable buffer, never a propagated error. -/
theorem runLoop_ok_spec (script : List Outcome) :
    ∀ (gb : GrowableBuffer) (r : Except Nat GrowableBuffer × Nat),
      (∀ o ∈ script, ∃ a sz, o = Except.ok ((a : FillBufferAction), (sz : Nat))) →
      runLoop gb script = some r →
      ∃ gb', r.1 = Except.ok gb' := by
  induction script with
  | nil =>
    intro gb r _ h
    rw [runLoop] at h
    exact absurd h (by simp)
  | cons o rest ih =>
    intro gb r hok h
    obtain ⟨a, sz, rfl⟩ := hok o (List.mem_cons_self o rest)
    rw [runLoop] at h
    rcases harg : gb.argument with _ | ⟨gb1, a0⟩ <;> simp only [harg] at h
    · exact absurd h (by simp)
    · obtain ⟨s0, t0⟩ := a0
      cases a with
      | Commit =>
        simp only [Argument.apply] at h
        rcases hC : Argument.commit ⟨sz, t0⟩ gb1 with _ | gb2 <;>
          simp only [hC, Option.map_none', Option.map_some'] at h
        · exact absurd h (by simp)
        · simp only [Option.some.injEq] at h
          exact ⟨gb2, by simp [← h]⟩
      | NoData =>
        simp only [Argument.apply] at h
        rcases hC : Argument.commitNoData ⟨sz, t0⟩ gb1 with _ | gb2 <;>
          simp only [hC, Option.map_none', Option.map_some'] at h
        · exact absurd h (by simp)
        · simp only [Option.some.injEq] at h
          exact ⟨gb2, by simp [← h]⟩
      | Grow =>
        simp only [Argument.apply] at h
        rcases hG : Argument.growParent ⟨sz, t0⟩ gb1 with _ | gb2 <;>
          simp only [hG, Option.map_none', Option.map_some'] at h
        · exact absurd h (by simp)
        · rcases hrl : runLoop gb2 rest with _ | ⟨r', n⟩ <;> simp only [hrl] at h
          · exact absurd h (by simp)
          · obtain ⟨gb', hgb'⟩ := ih gb2 (r', n)
              (fun o ho => hok o (List.mem_cons_of_mem _ ho)) hrl
            simp only [Option.some.injEq] at h
            exact ⟨gb', by simp [← h]; exact hgb'⟩

/-- Claim C7: if the classifier yields a terminal error on some attempt of
the generic loop (every earlier attempt having demanded Grow), the entry
point returns exactly that error after exactly that attempt and `finalize`
is never invoked; and when no attempt yields a terminal error, a completed
run returns exactly the output of `finalize`. -/
theorem winapi_generic_terminal_error :
    (∀ (U : Type) (gb : GrowableBuffer) (pre : List Outcome) (e : Nat) (rest : List Outcome)
        (finalize : FrozenBuffer → Except Nat U) (out : Except Nat U × Nat × Bool),
      (∀ o ∈ pre, ∃ sz, o = Except.ok (FillBufferAction.Grow, sz)) →
      winapiGeneric U gb (pre ++ Except.error e :: rest) finalize = some out →
      out = (Except.error e, pre.length + 1, false)) ∧
    (∀ (U : Type) (gb : GrowableBuffer) (script : List Outcome)
        (finalize : FrozenBuffer → Except Nat U) (out : Except Nat U × Nat × Bool),
      (∀ o ∈ script, ∃ a sz, o = Except.ok ((a : FillBufferAction), (sz : Nat))) →
      winapiGeneric U gb script finalize = some out →
      out.2.2 = true ∧ ∃ fb, out.1 = finalize fb) := by
  constructor
  · intro U gb pre e rest finalize out hpre h
    unfold winapiGeneric at h
    rcases hrl : runLoop gb (pre ++ Except.error e :: rest) with _ | ⟨res, n⟩ <;>
      simp only [hrl] at h
    · exact absurd h (by simp)
    · have hspec := runLoop_error_spec pre gb e rest (res, n) hpre hrl
      obtain ⟨h1, h2⟩ := Prod.mk.injEq .. ▸ hspec
      subst h1 h2
      simp only [Option.some.injEq] at h
      exact h.symm
  · intro U gb script finalize out hok h
    unfold winapiGeneric at h
    rcases hrl : runLoop gb script with _ | ⟨res, n⟩ <;> simp only [hrl] at h
    · exact absurd h (by simp)
    · obtain ⟨gb', hgb'⟩ := runLoop_ok_spec script gb (res, n) hok hrl
      simp only at hgb'
      subst hgb'
      rcases hfz : gb'.freeze with _ | fb <;> simp only [hfz] at h
      · exact absurd h (by simp)
      · simp only [Option.some.injEq] at h
        subst h
        exact ⟨rfl, fb, rfl⟩

/-- Growable buffer used by the claim C7 witness: a 32-byte stack initial
buffer and an arbitrary strategy. -/
def gbErr : GrowableBuffer :=
  { conv := rawBinary, final_size := 0,
    buffer_strategy := { active_buffer := .initial { cap := 32, offset := 0, final_size := 0 },
                         grow_strategy := fun _ d => d, tries := 0 } }

/-- Claim C7, witness: a script whose single attempt produces the raw error
code 5 makes the entry point return that error after one attempt with
`finalize` never invoked. -/
theorem winapi_generic_terminal_error_witness :
    winapiGeneric Nat gbErr (Except.error 5 :: []) (fun _ => Except.ok 0) =
      some (Except.error 5, 1, false) ∧
    ((Except.error 5 : Except Nat Nat), 1, false) =
      (Except.error 5, List.length ([] : List Outcome) + 1, false) :=
  ⟨rfl,
   winapi_generic_terminal_error.1 Nat gbErr [] 5 [] (fun _ => Except.ok 0)
     (Except.error 5, 1, false) (fun o ho => absurd ho (List.not_mem_nil o)) rfl⟩

/-- The peak of a quantity over a trace is at least its starting value. -/
theorem tracePeak_ge_start (step : Nat → MemEvent → Nat) :
    ∀ (evs : List MemEvent) (cur : Nat), cur ≤ tracePeak step cur evs := by
  intro evs
  induction evs with
  | nil => intro cur; simp [tracePeak]
  | cons e rest ih => intro cur; simp [tracePeak]

/-- The final value of a quantity never exceeds its peak. -/
theorem traceEnd_le_tracePeak (step : Nat → MemEvent → Nat) :
    ∀ (evs : List MemEvent) (cur : Nat), traceEnd step cur evs ≤ tracePeak step cur evs := by
  intro evs
  induction evs with
  | nil => intro cur; simp [traceEnd, tracePeak]
  | cons e rest ih =>
    intro cur
    calc traceEnd step cur (e :: rest) = traceEnd step (step cur e) rest := rfl
    _ ≤ tracePeak step (step cur e) rest := ih (step cur e)
    _ ≤ max cur (tracePeak step (step cur e) rest) := Nat.le_max_right ..

/-- Final trace values compose over concatenation. -/
theorem traceEnd_append (step : Nat → MemEvent → Nat) (a b : List MemEvent) (cur : Nat) :
    traceEnd step cur (a ++ b) = traceEnd step (traceEnd step cur a) b :=
  List.foldl_append ..

/-- Peaks compose over concatenation: the peak of a concatenated trace is
the larger of the first part's peak and the peak of the second part started
from the first part's final value. -/
theorem tracePeak_append (step : Nat → MemEvent → Nat) :
    ∀ (a : List MemEvent) (cur : Nat) (b : List MemEvent),
      tracePeak step cur (a ++ b) =
        max (tracePeak step cur a) (tracePeak step (traceEnd step cur a) b) := by
  intro a
  induction a with
  | nil =>
    intro cur b
    have h := tracePeak_ge_start step b cur
    simp [tracePeak, traceEnd]
    omega
  | cons e a ih =>
    intro cur b
    have h1 : tracePeak step cur ((e :: a) ++ b) =
        max cur (tracePeak step (step cur e) (a ++ b)) := rfl
    have h2 : traceEnd step cur (e :: a) = traceEnd step (step cur e) a := rfl
    rw [h1, ih (step cur e) b, h2]
    have h3 : tracePeak step cur (e :: a) = max cur (tracePeak step (step cur e) a) := rfl
    rw [h3]
    omega

/-- The largest allocation in a concatenated trace. -/
theorem maxAlloc_append :
    ∀ (a b : List MemEvent), maxAlloc (a ++ b) = max (maxAlloc a) (maxAlloc b) := by
  intro a b
  induction a with
  | nil => simp [maxAlloc]
  | cons e a ih =>
    cases e with
    | alloc c =>
      simp [maxAlloc, ih]
      omega
    | free c => simp [maxAlloc, ih]

/-- The active buffer holds at most one heap buffer. -/
theorem heapCount_le_one (ab : ActiveBuffer) : ab.heapCount ≤ 1 := by
  cases ab <;> simp [ActiveBuffer.heapCount]

/-- One instrumented `grow`: the allocator events it emits keep at most one
heap buffer live and never hold more bytes than the larger of the incoming
buffer and the single new allocation; afterwards exactly the new buffer (or
the untouched old state) is live. -/
theorem growEvents_spec (bs bs' : BufferStrategy) (d : Nat) (evs : List MemEvent)
    (h : bs.growEvents d = some (bs', evs)) :
    traceEnd stepBytes bs.active_buffer.heapBytes evs = bs'.active_buffer.heapBytes ∧
    traceEnd stepCount bs.active_buffer.heapCount evs = bs'.active_buffer.heapCount ∧
    tracePeak stepBytes bs.active_buffer.heapBytes evs ≤
      max bs.active_buffer.heapBytes (maxAlloc evs) ∧
    tracePeak stepCount bs.active_buffer.heapCount evs ≤ 1 := by
  unfold BufferStrategy.growEvents at h
  rcases hc : bs.capacityOpt with _ | current <;> simp only [hc] at h
  · exact absurd h (by simp)
  · by_cases hgrow : d > current
    · rw [if_pos hgrow] at h
      by_cases hadj : bs.grow_strategy (bs.tries + 1) d > current
      · rw [if_pos hadj] at h
        cases hab : bs.active_buffer with
        | pendingSwitch =>
          rw [BufferStrategy.capacityOpt, hab] at hc
          exact absurd hc (by simp [ActiveBuffer.capacityOpt])
        | heap hb =>
          rw [hab] at h
          simp only [Option.some.injEq] at h
          obtain ⟨h1, h2⟩ := Prod.mk.injEq .. ▸ h
          subst h2
          rw [← h1]
          simp [traceEnd, tracePeak, stepBytes, stepCount, maxAlloc,
            ActiveBuffer.heapBytes, ActiveBuffer.heapCount, HeapBuffer.new]
        | initial sb =>
          rw [hab] at h
          simp only [Option.some.injEq] at h
          obtain ⟨h1, h2⟩ := Prod.mk.injEq .. ▸ h
          subst h2
          rw [← h1]
          simp [traceEnd, tracePeak, stepBytes, stepCount, maxAlloc,
            ActiveBuffer.heapBytes, ActiveBuffer.heapCount, HeapBuffer.new]
      · rw [if_neg hadj] at h
        exact absurd h (by simp)
    · rw [if_neg hgrow] at h
      simp only [Option.some.injEq] at h
      obtain ⟨h1, h2⟩ := Prod.mk.injEq .. ▸ h
      subst h2
      rw [← h1]
      refine ⟨rfl, rfl, ?_, ?_⟩
      · simp [tracePeak]
      · simp [tracePeak]
        exact heapCount_le_one _

/-- Claim C9: along any sequence of grow requests, at most one heap buffer
is live at any moment (the old one is freed before the replacement is
allocated), and the peak heap bytes held never exceed the larger of the
initially held buffer and the single largest allocation requested — never
the sum of two buffers. -/
theorem grow_single_heap_buffer_peak :
    ∀ (ds : List Nat) (bs bsf : BufferStrategy) (tr : List MemEvent),
      runGrows bs ds = some (bsf, tr) →
      tracePeak stepCount bs.active_buffer.heapCount tr ≤ 1 ∧
      tracePeak stepBytes bs.active_buffer.heapBytes tr ≤
        max bs.active_buffer.heapBytes (maxAlloc tr) ∧
      traceEnd stepBytes bs.active_buffer.heapBytes tr = bsf.active_buffer.heapBytes ∧
      traceEnd stepCount bs.active_buffer.heapCount tr = bsf.active_buffer.heapCount := by
  intro ds
  induction ds with
  | nil =>
    intro bs bsf tr h
    rw [runGrows] at h
    simp only [Option.some.injEq] at h
    obtain ⟨h1, h2⟩ := Prod.mk.injEq .. ▸ h
    subst h2
    rw [← h1]
    refine ⟨?_, ?_, rfl, rfl⟩
    · simp [tracePeak]
      exact heapCount_le_one _
    · simp [tracePeak]
  | cons d ds ih =>
    intro bs bsf tr h
    rw [runGrows] at h
    rcases hg : bs.growEvents d with _ | ⟨bs1, evs⟩ <;> simp only [hg] at h
    · exact absurd h (by simp)
    · rcases hr : runGrows bs1 ds with _ | ⟨bsf', evs'⟩ <;> simp only [hr] at h
      · exact absurd h (by simp)
      · simp only [Option.some.injEq] at h
        obtain ⟨h1, h2⟩ := Prod.mk.injEq .. ▸ h
        subst h1 h2
        obtain ⟨e1, e2, p1, p2⟩ := growEvents_spec bs bs1 d evs hg
        obtain ⟨q1, q2, q3, q4⟩ := ih bs1 bsf' evs' hr
        have hle : traceEnd stepBytes bs.active_buffer.heapBytes evs ≤
            tracePeak stepBytes bs.active_buffer.heapBytes evs :=
          traceEnd_le_tracePeak ..
        refine ⟨?_, ?_, ?_, ?_⟩
        · rw [tracePeak_append, e2]
          omega
        · rw [tracePeak_append, maxAlloc_append, e1]
          rw [e1] at hle
          omega
        · rw [traceEnd_append, e1, q3]
        · rw [traceEnd_append, e2, q4]

/-- Negotiator used by the claim C9 witness: zero-capacity initial stack
buffer with a doubling strategy. -/
def bs9 : BufferStrategy :=
  { active_buffer := .initial { cap := 0, offset := 0, final_size := 0 },
    grow_strategy := fun _ d => d * 2, tries := 0 }

/-- Allocator trace produced by growing `bs9` to 10 and then 30: the
20-byte buffer is freed before the 60-byte one is allocated. -/
def tr9 : List MemEvent := [.alloc 20, .free 20, .alloc 60]

/-- Claim C9, witness: the concrete two-step grow sequence keeps at most
one heap buffer live and peaks at the largest single allocation. -/
theorem grow_single_heap_buffer_peak_witness :
    tracePeak stepCount bs9.active_buffer.heapCount tr9 ≤ 1 ∧
    tracePeak stepBytes bs9.active_buffer.heapBytes tr9 ≤
      max bs9.active_buffer.heapBytes (maxAlloc tr9) ∧
    traceEnd stepBytes bs9.active_buffer.heapBytes tr9 =
      (ActiveBuffer.heap ⟨60, 0⟩).heapBytes ∧
    traceEnd stepCount bs9.active_buffer.heapCount tr9 =
      (ActiveBuffer.heap ⟨60, 0⟩).heapCount :=
  grow_single_heap_buffer_peak [10, 30] bs9
    ⟨.heap ⟨60, 0⟩, bs9.grow_strategy, 2⟩ tr9 rfl

end Grob
